import Mathlib

/-!
Verification development for the NoteStream / TradePro backend
(src/complete-tradepro-backend.js).

The live market-data core is shallowly embedded:
- JS numbers are modelled as exact rationals; `parseFloat(x.toFixed(2))`
  becomes `round2` (round to the nearest hundredth, ties toward plus
  infinity, exactly the ECMAScript `toFixed` tie rule of picking the
  larger candidate).
- `Math.random()` values are oracle parameters, rationals in `[0, 1)`.
- The JS `Map` (insertion-ordered, `set` replaces in place) is modelled
  as an association list with `mapGet` / `mapSet`.
- The WebSocket transport (the `ws` library) is modelled at the level the
  code relies on: the server keeps a registry of clients, `send` appends
  to the inbox of a client whose readyState is OPEN and is skipped
  otherwise, and a closed connection is removed from the registry when
  its close event is processed.
-/

/-- Rounding used by the tick generator at lines 119-121 of
src/complete-tradepro-backend.js: `parseFloat(value.toFixed(2))`.
`toFixed(2)` picks the integer n minimizing the distance of n/100 to the
value, taking the larger n on ties. -/
def round2 (x : ℚ) : ℚ := ((Int.floor (x * 100 + 0.5) : ℤ) : ℚ) / 100

/-- A market-index quote, as stored in the `marketData` map
(lines 87-99 of src/complete-tradepro-backend.js). The `timestamp`
field is omitted: no claim mentions it. -/
structure Quote where
  id : ℕ
  symbol : String
  name : String
  price : ℚ
  change : ℚ
  changePercent : ℚ
  volume : ℤ
deriving DecidableEq, Repr

/-- JS `Map.prototype.get`, on an insertion-ordered association list:
the value at the first (and, in this program, only) entry with the key. -/
def mapGet {α : Type} : List (String × α) → String → Option α
  | [], _ => none
  | p :: rest, k => if p.1 = k then some p.2 else mapGet rest k

/-- JS `Map.prototype.has`. -/
def mapHas {α : Type} (m : List (String × α)) (k : String) : Bool :=
  (mapGet m k).isSome

/-- JS `Map.prototype.set`: replaces the entry in place when the key is
present (preserving insertion order), appends otherwise. -/
def mapSet {α : Type} (m : List (String × α)) (k : String) (v : α) :
    List (String × α) :=
  if mapHas m k then
    m.map (fun p => if p.1 = k then (k, v) else p)
  else
    m ++ [(k, v)]

/-- The keys of the map, in insertion order. -/
def mapKeys {α : Type} (m : List (String × α)) : List String := m.map (·.1)

/-- The quote table: `marketData` in the source. -/
abbrev QuoteTable := List (String × Quote)

/-- Initial market indices loaded by `initializeDemoData`
(lines 87-99 of src/complete-tradepro-backend.js). -/
def marketData0 : QuoteTable :=
  [("BANKNIFTY", ⟨1, "BANKNIFTY", "Bank Nifty", 47825.50, 245.75, 0.52, 1234567⟩),
   ("NIFTY", ⟨2, "NIFTY", "Nifty 50", 21845.30, 125.40, 0.58, 987654⟩),
   ("SENSEX", ⟨3, "SENSEX", "Sensex", 72456.80, 189.20, 0.26, 654321⟩),
   ("FINNIFTY", ⟨4, "FINNIFTY", "Fin Nifty", 20567.90, -45.60, -0.22, 456789⟩)]

/-- The fixed symbol list iterated by `updateMarketData`
(line 106 of src/complete-tradepro-backend.js). -/
def tickSymbols : List String := ["BANKNIFTY", "NIFTY", "SENSEX", "FINNIFTY"]

/-- The body of the per-symbol update in `updateMarketData`
(lines 111-124 of src/complete-tradepro-backend.js), with the two
`Math.random()` draws of the iteration passed as `rPrice` and `rVolume`:

  fluctuation = (Math.random() - 0.5) * 0.02
  newPrice    = current.price * (1 + fluctuation)
  change      = newPrice - current.price
  changePercent = (change / current.price) * 100
  updated     = { ...current,
                  price:  parseFloat(newPrice.toFixed(2)),
                  change: parseFloat(change.toFixed(2)),
                  changePercent: parseFloat(changePercent.toFixed(2)),
                  volume: Math.floor(Math.random() * 500000) + 500000 } -/
def tickQuote (current : Quote) (rPrice rVolume : ℚ) : Quote :=
  let fluctuation := (rPrice - 0.5) * 0.02
  let newPrice := current.price * (1 + fluctuation)
  let change := newPrice - current.price
  let changePercent := change / current.price * 100
  { current with
      price := round2 newPrice
      change := round2 change
      changePercent := round2 changePercent
      volume := Int.floor (rVolume * 500000) + 500000 }

/-- Messages sent over the WebSocket channel (lines 129-133 and 150-153
of src/complete-tradepro-backend.js). `initialData` carries the whole
quote table, `marketUpdate` one updated symbol. -/
inductive Message where
  | initialData (data : QuoteTable)
  | marketUpdate (symbol : String) (data : Quote)
deriving DecidableEq, Repr

/-- One iteration of the `symbols.forEach` loop of `updateMarketData`
(lines 108-135): skip a symbol absent from the table, otherwise store
the recomputed quote and emit the `marketUpdate` broadcast message. The
accumulator carries the table and the ordered list of emitted messages. -/
def updateSymbol (rnd : String → ℚ × ℚ) (acc : QuoteTable × List Message)
    (symbol : String) : QuoteTable × List Message :=
  match mapGet acc.1 symbol with
  | none => acc
  | some current =>
      let updatedData := tickQuote current (rnd symbol).1 (rnd symbol).2
      (mapSet acc.1 symbol updatedData,
       acc.2 ++ [Message.marketUpdate symbol updatedData])

/-- `updateMarketData` (lines 105-136 of src/complete-tradepro-backend.js):
one tick over the fixed symbol list. `rnd s` supplies the pair of
`Math.random()` draws used for symbol `s` (price fluctuation, volume).
Returns the new table and the broadcast messages in emission order. -/
def updateMarketData (md : QuoteTable) (rnd : String → ℚ × ℚ) :
    QuoteTable × List Message :=
  tickSymbols.foldl (updateSymbol rnd) (md, [])

section Round2Lemmas

theorem round2_err (x : ℚ) : |round2 x - x| ≤ 1 / 200 := by
  have h1 : ((Int.floor (x * 100 + 0.5) : ℤ) : ℚ) ≤ x * 100 + 0.5 :=
    Int.floor_le _
  have h2 : x * 100 + 0.5 - 1 < ((Int.floor (x * 100 + 0.5) : ℤ) : ℚ) :=
    Int.sub_one_lt_floor _
  rw [round2, abs_le]
  constructor <;> linarith

theorem round2_cent (x : ℚ) : ∃ k : ℤ, round2 x = (k : ℚ) / 100 :=
  ⟨Int.floor (x * 100 + 0.5), rfl⟩

/-- The rounded value is a nearest multiple of one hundredth. -/
theorem round2_nearest (x : ℚ) (m : ℤ) :
    |round2 x - x| ≤ |(m : ℚ) / 100 - x| := by
  have h1 : ((Int.floor (x * 100 + 0.5) : ℤ) : ℚ) ≤ x * 100 + 0.5 :=
    Int.floor_le _
  have h2 : x * 100 + 0.5 - 1 < ((Int.floor (x * 100 + 0.5) : ℤ) : ℚ) :=
    Int.sub_one_lt_floor _
  rcases eq_or_ne m (Int.floor (x * 100 + 0.5)) with rfl | hne
  · exact le_of_eq rfl
  · have hsep : (1 : ℚ) ≤ |(m : ℚ) - (Int.floor (x * 100 + 0.5) : ℤ)| := by
      rw [show ((m : ℚ) - (Int.floor (x * 100 + 0.5) : ℤ)) =
          ((m - Int.floor (x * 100 + 0.5) : ℤ) : ℚ) by push_cast; ring]
      rw [← Int.cast_abs]
      exact_mod_cast Int.one_le_abs (sub_ne_zero_of_ne hne)
    have hclose : |((Int.floor (x * 100 + 0.5) : ℤ) : ℚ) - x * 100| ≤ 1 / 2 := by
      rw [abs_le]; constructor <;> linarith
    have htri : |(m : ℚ) - x * 100| ≥ 1 / 2 := by
      have t := abs_sub_le (m : ℚ) (x * 100)
        ((Int.floor (x * 100 + 0.5) : ℤ) : ℚ)
      have hcomm : |x * 100 - ((Int.floor (x * 100 + 0.5) : ℤ) : ℚ)| =
          |((Int.floor (x * 100 + 0.5) : ℤ) : ℚ) - x * 100| := abs_sub_comm _ _
      linarith
    have hL : |round2 x - x| ≤ 1 / 200 := round2_err x
    have hR : |(m : ℚ) / 100 - x| = |(m : ℚ) - x * 100| / 100 := by
      rw [show (m : ℚ) / 100 - x = ((m : ℚ) - x * 100) / 100 by ring,
        abs_div, abs_of_pos (by norm_num : (0 : ℚ) < 100)]
    rw [hR]
    linarith

/-- Rounding commutes with subtracting a multiple of one hundredth. -/
theorem round2_sub_cent (x : ℚ) (k : ℤ) :
    round2 x - (k : ℚ) / 100 = round2 (x - (k : ℚ) / 100) := by
  rw [round2, round2,
    show (x - (k : ℚ) / 100) * 100 + 0.5 = x * 100 + 0.5 - (k : ℚ) by ring,
    Int.floor_sub_int]
  push_cast
  ring

end Round2Lemmas

section MapLemmas

variable {α : Type}

theorem mapHas_of_mapGet_some {m : List (String × α)} {k : String} {v : α}
    (h : mapGet m k = some v) : mapHas m k = true := by
  rw [mapHas, h]; rfl

theorem mapGet_mapReplace_self {k : String} {v : α} :
    ∀ m : List (String × α), mapHas m k = true →
      mapGet (m.map (fun p => if p.1 = k then (k, v) else p)) k = some v := by
  intro m
  induction m with
  | nil => intro h; simp [mapHas, mapGet] at h
  | cons hd tl ih =>
      intro h
      by_cases hk : hd.1 = k
      · simp [mapGet, hk]
      · have h' : mapHas tl k = true := by
          simpa [mapHas, mapGet, hk] using h
        simpa [mapGet, hk] using ih h'

theorem mapGet_append_single_self {k : String} {v : α}
    (m : List (String × α)) : mapHas m k = false →
      mapGet (m ++ [(k, v)]) k = some v := by
  induction m with
  | nil => intro h; simp [mapGet]
  | cons hd tl ih =>
      intro h
      have hk : ¬hd.1 = k := by
        intro hc
        simp [mapHas, mapGet, hc] at h
      have h' : mapHas tl k = false := by
        simpa [mapHas, mapGet, hk] using h
      simpa [mapGet, hk] using ih h'

theorem mapGet_mapSet_self (m : List (String × α)) (k : String) (v : α) :
    mapGet (mapSet m k v) k = some v := by
  rw [mapSet]
  by_cases h : mapHas m k
  · rw [if_pos h]; exact mapGet_mapReplace_self m h
  · rw [if_neg h]
    exact mapGet_append_single_self m (by simpa using h)

theorem mapGet_mapReplace_ne {k k' : String} {v : α} (hne : k' ≠ k)
    (m : List (String × α)) :
    mapGet (m.map (fun p => if p.1 = k then (k, v) else p)) k' =
      mapGet m k' := by
  induction m with
  | nil => rfl
  | cons hd tl ih =>
      by_cases hk : hd.1 = k
      · have h3 : ¬(k = k') := Ne.symm hne
        have h4 : ¬(hd.1 = k') := by rw [hk]; exact h3
        simp [mapGet, hk, h3, h4, ih]
      · by_cases hk' : hd.1 = k'
        · simp [mapGet, hk, hk', hne]
        · simp [mapGet, hk, hk', ih]

theorem mapGet_append_single_ne {k k' : String} {v : α} (hne : k' ≠ k)
    (m : List (String × α)) :
    mapGet (m ++ [(k, v)]) k' = mapGet m k' := by
  induction m with
  | nil => simp [mapGet, Ne.symm hne]
  | cons hd tl ih =>
      by_cases hk' : hd.1 = k'
      · simp [mapGet, hk']
      · simp [mapGet, hk', ih]

theorem mapGet_mapSet_ne (m : List (String × α)) {k k' : String} (v : α)
    (hne : k' ≠ k) : mapGet (mapSet m k v) k' = mapGet m k' := by
  rw [mapSet]
  by_cases h : mapHas m k
  · rw [if_pos h]; exact mapGet_mapReplace_ne hne m
  · rw [if_neg h]; exact mapGet_append_single_ne hne m

theorem mapKeys_mapReplace {k : String} {v : α} (m : List (String × α)) :
    mapKeys (m.map (fun p => if p.1 = k then (k, v) else p)) = mapKeys m := by
  induction m with
  | nil => rfl
  | cons hd tl ih =>
      simp only [mapKeys, List.map_cons, List.cons.injEq] at ih ⊢
      constructor
      · by_cases hk : hd.1 = k
        · simp [hk]
        · simp [hk]
      · exact ih

theorem mapKeys_mapSet_of_has (m : List (String × α)) {k : String} (v : α)
    (h : mapHas m k = true) : mapKeys (mapSet m k v) = mapKeys m := by
  rw [mapSet, if_pos h]
  exact mapKeys_mapReplace m

end MapLemmas

section TickLemmas

variable (rnd : String → ℚ × ℚ)

theorem updateSymbol_get_ne (acc : QuoteTable × List Message) {s t : String}
    (hne : s ≠ t) : mapGet (updateSymbol rnd acc t).1 s = mapGet acc.1 s := by
  rw [updateSymbol]
  cases hg : mapGet acc.1 t with
  | none => rfl
  | some current => exact mapGet_mapSet_ne _ _ hne

theorem updateSymbol_get_self (acc : QuoteTable × List Message) {t : String}
    {q : Quote} (hq : mapGet acc.1 t = some q) :
    mapGet (updateSymbol rnd acc t).1 t =
      some (tickQuote q (rnd t).1 (rnd t).2) := by
  rw [updateSymbol, hq]
  exact mapGet_mapSet_self _ _ _

theorem updateSymbol_keys (acc : QuoteTable × List Message) (t : String) :
    mapKeys (updateSymbol rnd acc t).1 = mapKeys acc.1 := by
  rw [updateSymbol]
  cases hg : mapGet acc.1 t with
  | none => rfl
  | some current => exact mapKeys_mapSet_of_has _ _ (mapHas_of_mapGet_some hg)

theorem foldl_updateSymbol_keys (syms : List String) :
    ∀ acc : QuoteTable × List Message,
      mapKeys ((syms.foldl (updateSymbol rnd) acc).1) = mapKeys acc.1 := by
  induction syms with
  | nil => intro acc; rfl
  | cons hd tl ih =>
      intro acc
      rw [List.foldl_cons, ih, updateSymbol_keys]

/-- A tick never adds or removes a symbol: the key set (and order) of the
quote table is preserved. -/
theorem updateMarketData_keys (md : QuoteTable) :
    mapKeys (updateMarketData md rnd).1 = mapKeys md := by
  rw [updateMarketData, foldl_updateSymbol_keys]

theorem updateSymbol_msgs (acc : QuoteTable × List Message) (t : String)
    {m : Message} (hm : m ∈ (updateSymbol rnd acc t).2) :
    m ∈ acc.2 ∨ ∃ s q, m = Message.marketUpdate s q := by
  rw [updateSymbol] at hm
  cases hg : mapGet acc.1 t with
  | none => rw [hg] at hm; exact Or.inl hm
  | some current =>
      rw [hg] at hm
      rcases List.mem_append.mp hm with h | h
      · exact Or.inl h
      · right
        rcases List.mem_singleton.mp h with rfl
        exact ⟨_, _, rfl⟩

theorem foldl_updateSymbol_msgs (syms : List String) :
    ∀ (acc : QuoteTable × List Message) (m : Message),
      m ∈ (syms.foldl (updateSymbol rnd) acc).2 →
      m ∈ acc.2 ∨ ∃ s q, m = Message.marketUpdate s q := by
  induction syms with
  | nil => intro acc m hm; exact Or.inl hm
  | cons hd tl ih =>
      intro acc m hm
      rw [List.foldl_cons] at hm
      rcases ih _ m hm with h | h
      · exact updateSymbol_msgs rnd acc hd h
      · exact Or.inr h

/-- Every message emitted by a tick is an incremental market update,
never a snapshot. -/
theorem updateMarketData_msgs (md : QuoteTable) {m : Message}
    (hm : m ∈ (updateMarketData md rnd).2) :
    ∃ s q, m = Message.marketUpdate s q := by
  rcases foldl_updateSymbol_msgs rnd tickSymbols (md, []) m hm with h | h
  · simp at h
  · exact h

/-- The quote stored for a tracked symbol after one tick is exactly
`tickQuote` of the quote stored before it, fed with the random draws of
that symbol. -/
theorem updateMarketData_get (md : QuoteTable) {s : String} {q : Quote}
    (hq : mapGet md s = some q) (hs : s ∈ tickSymbols) :
    mapGet (updateMarketData md rnd).1 s =
      some (tickQuote q (rnd s).1 (rnd s).2) := by
  rw [updateMarketData, tickSymbols] at *
  simp only [List.foldl_cons, List.foldl_nil]
  simp only [tickSymbols, List.mem_cons, List.mem_singleton] at hs
  rcases hs with rfl | rfl | rfl | hs
  · rw [updateSymbol_get_ne rnd _ (by decide),
      updateSymbol_get_ne rnd _ (by decide),
      updateSymbol_get_ne rnd _ (by decide)]
    exact updateSymbol_get_self rnd _ hq
  · rw [updateSymbol_get_ne rnd _ (by decide),
      updateSymbol_get_ne rnd _ (by decide)]
    exact updateSymbol_get_self rnd _
      (by rw [updateSymbol_get_ne rnd _ (by decide)]; exact hq)
  · rw [updateSymbol_get_ne rnd _ (by decide)]
    exact updateSymbol_get_self rnd _
      (by rw [updateSymbol_get_ne rnd _ (by decide),
          updateSymbol_get_ne rnd _ (by decide)]; exact hq)
  · rcases hs with rfl | hs
    · exact updateSymbol_get_self rnd _
        (by rw [updateSymbol_get_ne rnd _ (by decide),
            updateSymbol_get_ne rnd _ (by decide),
            updateSymbol_get_ne rnd _ (by decide)]; exact hq)
    · simp at hs

end TickLemmas

/-- A connected viewer, as the server sees it: the `ws` connection object
held in `wss.clients`. `readyStateOpen` mirrors
`client.readyState === WebSocket.OPEN` (line 168 of
src/complete-tradepro-backend.js); `inbox` records, in order, the
messages successfully handed to `client.send`. -/
structure Client where
  cid : ℕ
  readyStateOpen : Bool
  inbox : List Message
deriving DecidableEq, Repr

/-- `broadcastToClients` (lines 165-172 of
src/complete-tradepro-backend.js): send the message to every registered
client whose readyState is OPEN; a client whose connection is closed or
broken is skipped and receives nothing. -/
def broadcastToClients (clients : List Client) (message : Message) :
    List Client :=
  clients.map (fun c =>
    if c.readyStateOpen then { c with inbox := c.inbox ++ [message] } else c)

/-- The state of the server core: the `marketData` map and the
`wss.clients` registry. -/
structure ServerState where
  marketData : QuoteTable
  clients : List Client
deriving Repr

/-- The externally triggered events of the single-threaded event loop:
a new viewer connection, the close event of a connection (after which
the `ws` library removes it from `wss.clients`), a connection breaking
(its readyState leaves OPEN), and one timer tick. -/
inductive Event where
  | connect (cid : ℕ)
  | close (cid : ℕ)
  | breakConn (cid : ℕ)
  | tick (rnd : String → ℚ × ℚ)

/-- One step of the event loop:
- `connect` registers the viewer and synchronously sends it the one
  `initialData` snapshot of the current quote table
  (lines 141-153 of src/complete-tradepro-backend.js);
- `close` removes the connection from `wss.clients` (the `ws` library
  deregisters a closed connection; the close handler at line 155 only
  logs);
- `breakConn` marks the connection as no longer OPEN;
- `tick` runs `updateMarketData` and broadcasts each emitted
  `marketUpdate` message in order. -/
def step (st : ServerState) : Event → ServerState
  | Event.connect cid =>
      { st with clients :=
          st.clients ++ [⟨cid, true, [Message.initialData st.marketData]⟩] }
  | Event.close cid =>
      { st with clients := st.clients.filter (fun c => c.cid ≠ cid) }
  | Event.breakConn cid =>
      { st with clients := st.clients.map (fun c =>
          if c.cid = cid then { c with readyStateOpen := false } else c) }
  | Event.tick rnd =>
      let r := updateMarketData st.marketData rnd
      { marketData := r.1, clients := r.2.foldl broadcastToClients st.clients }

/-- A run of the event loop from a starting state. -/
def run (st : ServerState) (es : List Event) : ServerState := es.foldl step st

/-- The state right after `initializeDemoData()` (line 618 of
src/complete-tradepro-backend.js): demo quotes loaded, no viewer yet. -/
def initState : ServerState := ⟨marketData0, []⟩

section BroadcastLemmas

/-- Broadcasting a list of messages in order appends the whole list to
the inbox of every OPEN client and leaves every other client untouched. -/
theorem foldl_broadcast (ms : List Message) :
    ∀ cs : List Client,
      ms.foldl broadcastToClients cs =
        cs.map (fun c =>
          if c.readyStateOpen then { c with inbox := c.inbox ++ ms } else c) := by
  induction ms with
  | nil =>
      intro cs
      simp only [List.foldl_nil]
      conv_lhs => rw [← List.map_id cs]
      refine List.map_congr_left ?_
      intro c _
      rcases c with ⟨cid, o, inbox⟩
      cases o <;> simp
  | cons m ms ih =>
      intro cs
      rw [List.foldl_cons, ih, broadcastToClients, List.map_map]
      refine List.map_congr_left ?_
      intro c _
      by_cases h : c.readyStateOpen <;> simp [Function.comp, h]

end BroadcastLemmas

/-- What claim C1 requires of a viewer: its message sequence starts with
one `initialData` snapshot covering all tracked symbols, and everything
after it is an incremental `marketUpdate`; in particular no incremental
update precedes the snapshot and no second snapshot is ever sent. -/
def snapshotFirst (c : Client) : Prop :=
  ∃ snap rest, c.inbox = Message.initialData snap :: rest ∧
    mapKeys snap = tickSymbols ∧
    ∀ m ∈ rest, ∃ s q, m = Message.marketUpdate s q

/-- Invariant of the event loop: the quote table always has exactly the
tracked symbols as keys, and every registered viewer satisfies
`snapshotFirst`. -/
def goodState (st : ServerState) : Prop :=
  mapKeys st.marketData = tickSymbols ∧ ∀ c ∈ st.clients, snapshotFirst c

theorem goodState_init : goodState initState := by
  constructor
  · rfl
  · intro c hc
    simp [initState] at hc

theorem goodState_step {st : ServerState} (h : goodState st) (e : Event) :
    goodState (step st e) := by
  obtain ⟨hkeys, hclients⟩ := h
  cases e with
  | connect cid =>
      refine ⟨hkeys, ?_⟩
      intro c hc
      rw [step] at hc
      rcases List.mem_append.mp hc with h | h
      · exact hclients c h
      · rcases List.mem_singleton.mp h with rfl
        exact ⟨st.marketData, [], rfl, hkeys, by simp⟩
  | close cid =>
      refine ⟨hkeys, ?_⟩
      intro c hc
      rw [step] at hc
      exact hclients c (List.mem_of_mem_filter hc)
  | breakConn cid =>
      refine ⟨hkeys, ?_⟩
      intro c hc
      rw [step] at hc
      rcases List.mem_map.mp hc with ⟨c₀, hc₀, rfl⟩
      rcases hclients c₀ hc₀ with ⟨snap, rest, hin, hsnap, hrest⟩
      by_cases hcid : c₀.cid = cid
      · exact ⟨snap, rest, by simp [hcid, hin], hsnap, hrest⟩
      · exact ⟨snap, rest, by simp [hcid, hin], hsnap, hrest⟩
  | tick rnd =>
      constructor
      · rw [step]
        simpa using (updateMarketData_keys rnd st.marketData).trans hkeys
      · intro c hc
        rw [step] at hc
        simp only [foldl_broadcast] at hc
        rcases List.mem_map.mp hc with ⟨c₀, hc₀, rfl⟩
        rcases hclients c₀ hc₀ with ⟨snap, rest, hin, hsnap, hrest⟩
        by_cases hopen : c₀.readyStateOpen
        · refine ⟨snap, rest ++ (updateMarketData st.marketData rnd).2,
            by simp [hopen, hin], hsnap, ?_⟩
          intro m hm
          rcases List.mem_append.mp hm with h | h
          · exact hrest m h
          · exact updateMarketData_msgs rnd st.marketData h
        · exact ⟨snap, rest, by simp [hopen, hin], hsnap, hrest⟩

theorem goodState_run (es : List Event) :
    ∀ st : ServerState, goodState st → goodState (run st es) := by
  induction es with
  | nil => intro st h; exact h
  | cons e es ih =>
      intro st h
      rw [run, List.foldl_cons]
      exact ih _ (goodState_step h e)

/-- The concatenated stream of broadcast messages that the ticks of an
event sequence produce starting from a given quote table. The quote
table only changes at ticks. -/
def streamOf (md : QuoteTable) : List Event → List Message
  | [] => []
  | Event.tick rnd :: es =>
      (updateMarketData md rnd).2 ++ streamOf (updateMarketData md rnd).1 es
  | Event.connect _ :: es => streamOf md es
  | Event.close _ :: es => streamOf md es
  | Event.breakConn _ :: es => streamOf md es

/-- Does this event disconnect or break the connection with this id? -/
def affects (cid : ℕ) : Event → Bool
  | Event.close c => c = cid
  | Event.breakConn c => c = cid
  | _ => false

/-- All messages in a tick stream are incremental market updates. -/
theorem streamOf_marketUpdates (es : List Event) :
    ∀ (md : QuoteTable) (m : Message), m ∈ streamOf md es →
      ∃ s q, m = Message.marketUpdate s q := by
  induction es with
  | nil => intro md m hm; simp [streamOf] at hm
  | cons e es ih =>
      intro md m hm
      cases e with
      | tick rnd =>
          rw [streamOf] at hm
          rcases List.mem_append.mp hm with h | h
          · exact updateMarketData_msgs rnd md h
          · exact ih _ m h
      | connect cid => exact ih _ m hm
      | close cid => exact ih _ m hm
      | breakConn cid => exact ih _ m hm

/-- A viewer that is registered and OPEN, and that the events of the run
never close or break, stays registered and receives exactly the tick
stream, appended in order to what it already received. -/
theorem run_client_stream (es : List Event) :
    ∀ (st : ServerState) (c : Client), c ∈ st.clients →
      c.readyStateOpen = true →
      (∀ e ∈ es, affects c.cid e = false) →
      (⟨c.cid, true, c.inbox ++ streamOf st.marketData es⟩ : Client) ∈
        (run st es).clients := by
  induction es with
  | nil =>
      intro st c hc hopen _
      rcases c with ⟨cid, o, inbox⟩
      cases hopen
      simpa [run, streamOf] using hc
  | cons e es ih =>
      intro st c hc hopen haff
      have haffe : affects c.cid e = false := haff e (List.mem_cons_self e es)
      have haffes : ∀ e' ∈ es, affects c.cid e' = false := by
        intro e' he'
        exact haff e' (List.mem_cons_of_mem e he')
      rw [run, List.foldl_cons]
      cases e with
      | connect cid =>
          have hc' : c ∈ (step st (Event.connect cid)).clients := by
            rw [step]
            exact List.mem_append_left _ hc
          simpa [step, streamOf] using ih _ c hc' hopen haffes
      | close cid =>
          have hne : c.cid ≠ cid := by
            rw [affects] at haffe
            exact Ne.symm (by simpa using haffe)
          have hc' : c ∈ (step st (Event.close cid)).clients := by
            rw [step]
            exact List.mem_filter.mpr ⟨hc, by simpa using hne⟩
          simpa [step, streamOf] using ih _ c hc' hopen haffes
      | breakConn cid =>
          have hne : c.cid ≠ cid := by
            rw [affects] at haffe
            exact Ne.symm (by simpa using haffe)
          have hc' : c ∈ (step st (Event.breakConn cid)).clients := by
            rw [step]
            exact List.mem_map.mpr ⟨c, hc, by simp [hne]⟩
          simpa [step, streamOf] using ih _ c hc' hopen haffes
      | tick rnd =>
          have hc' : (⟨c.cid, true,
              c.inbox ++ (updateMarketData st.marketData rnd).2⟩ : Client) ∈
              (step st (Event.tick rnd)).clients := by
            rw [step]
            simp only [foldl_broadcast]
            refine List.mem_map.mpr ⟨c, hc, ?_⟩
            rcases c with ⟨cid, o, inbox⟩
            cases hopen
            simp
          have := ih _ _ hc' rfl haffes
          simpa [step, streamOf, List.append_assoc] using this

/-- JS `String.prototype.toUpperCase`, applied by every route to its
`:symbol` parameter (ASCII suffices for the symbols of this server):
uppercase every character. -/
def jsToUpperCase (s : String) : String := ⟨s.data.map Char.toUpper⟩

/-- JS `String.prototype.toLowerCase` (used in the templated AI
reasoning text): lowercase every character. -/
def jsToLowerCase (s : String) : String := ⟨s.data.map Char.toLower⟩

/-- The JSON response of a route handler: `json st body` for
`res.status(st).json(body)` with a payload, `failure st msg` for
`res.status(st).json({ error: msg })`. -/
inductive ApiResult (α : Type) where
  | json (status : ℕ) (body : α)
  | failure (status : ℕ) (error : String)
deriving DecidableEq, Repr

/-- Is the response the not-found result, status 404 with an error
message? -/
def ApiResult.isNotFound {α : Type} : ApiResult α → Bool
  | ApiResult.failure 404 _ => true
  | _ => false

/-- `GET /api/market-indices/:symbol` (lines 262-276 of
src/complete-tradepro-backend.js): uppercase the parameter, look the
symbol up in `marketData`, 404 when absent. -/
def getMarketIndexHandler (md : QuoteTable) (symbolParam : String) :
    ApiResult Quote :=
  let symbol := jsToUpperCase symbolParam
  match mapGet md symbol with
  | none => ApiResult.failure 404 "Market data not found"
  | some data => ApiResult.json 200 data

/-- One row of the demo options chain (lines 68-84 of
src/complete-tradepro-backend.js). The `timestamp` field is omitted. -/
structure OptionQuote where
  id : ℕ
  underlyingSymbol : String
  strike : ℚ
  callPrice : ℚ
  putPrice : ℚ
  callVolume : ℤ
  putVolume : ℤ
  callOI : ℤ
  putOI : ℤ
  expiryDate : String
deriving DecidableEq, Repr

/-- The demo `optionsData` map built by `initializeDemoData`
(lines 68-84): a single entry for BANKNIFTY. -/
def optionsData0 : List (String × List OptionQuote) :=
  [("BANKNIFTY",
    [⟨1, "BANKNIFTY", 47000, 2156.75, 45.30, 1250, 890, 15000, 8900, "25 Jan 2024"⟩,
     ⟨2, "BANKNIFTY", 47500, 1687.25, 78.45, 2340, 1560, 23400, 15600, "25 Jan 2024"⟩,
     ⟨3, "BANKNIFTY", 48000, 1285.90, 134.25, 3450, 2890, 34500, 28900, "25 Jan 2024"⟩,
     ⟨4, "BANKNIFTY", 48500, 945.75, 213.60, 2670, 3240, 26700, 32400, "25 Jan 2024"⟩,
     ⟨5, "BANKNIFTY", 49000, 678.30, 327.80, 1890, 4120, 18900, 41200, "25 Jan 2024"⟩,
     ⟨6, "BANKNIFTY", 49500, 456.25, 478.90, 1240, 2890, 12400, 28900, "25 Jan 2024"⟩,
     ⟨7, "BANKNIFTY", 50000, 298.75, 667.45, 890, 2340, 8900, 23400, "25 Jan 2024"⟩])]

/-- `GET /api/options-chain/:symbol/:expiry` (lines 357-366 of
src/complete-tradepro-backend.js):
`res.json(optionsData.get(symbol) || [])` — an unknown symbol yields a
200 success with an empty list, not a 404. -/
def optionsChainHandler (od : List (String × List OptionQuote))
    (symbolParam : String) : ApiResult (List OptionQuote) :=
  let symbol := jsToUpperCase symbolParam
  ApiResult.json 200 ((mapGet od symbol).getD [])

/-- Result record of `analyzeMarketWithAI` (lines 196-209 of
src/complete-tradepro-backend.js). The `timestamp` field is omitted. -/
structure AIAnalysis where
  symbol : String
  signal : String
  confidence : ℤ
  reasoning : String
  targetPrice : ℚ
  stopLoss : ℚ
  riskLevel : String
deriving DecidableEq, Repr

/-- The signal labels of `analyzeMarketWithAI` (line 186). -/
def signals : List String := ["BUY", "SELL", "HOLD"]

/-- The risk labels of `analyzeMarketWithAI` (line 187). -/
def riskLevels : List String := ["LOW", "MEDIUM", "HIGH"]

/-- `analyzeMarketWithAI` (lines 175-210 of
src/complete-tradepro-backend.js), with its three `Math.random()` draws
passed as `rSignal`, `rConf`, `rRisk`. The function throws
`Error('Market data not found')` when the symbol is not in `marketData`;
here that is the `Except.error` branch. The simulated processing delay
has no observable effect and is dropped. -/
def analyzeMarketWithAI (md : QuoteTable) (symbol : String)
    (rSignal rConf rRisk : ℚ) : Except String AIAnalysis :=
  match mapGet md symbol with
  | none => Except.error "Market data not found"
  | some marketDataPoint =>
      let signal := signals.getD (Int.floor (rSignal * 3)).toNat ""
      let confidence := Int.floor (rConf * 30) + 70
      let riskLevel := riskLevels.getD (Int.floor (rRisk * 3)).toNat ""
      let targetMultiplier : ℚ := if signal = "BUY" then 1.02 else 0.98
      let stopMultiplier : ℚ := if signal = "BUY" then 0.98 else 1.02
      Except.ok
        { symbol := symbol
          signal := signal
          confidence := confidence
          reasoning := "Based on current market analysis of " ++ symbol ++
            ", the AI model detected " ++
            (if signal = "BUY" then "bullish momentum with strong volume support"
             else if signal = "SELL" then
               "bearish pressure with resistance at current levels"
             else "consolidation pattern with mixed signals") ++
            ". Technical indicators suggest " ++ jsToLowerCase riskLevel ++
            " risk entry point."
          targetPrice := marketDataPoint.price * targetMultiplier
          stopLoss := marketDataPoint.price * stopMultiplier
          riskLevel := riskLevel }

/-- `POST /api/ai/analyze-market/:symbol` (lines 369-378 of
src/complete-tradepro-backend.js): the `catch` block maps every thrown
error, including the not-found one, to a 500 with
`error: 'AI analysis failed'`. -/
def analyzeMarketHandler (md : QuoteTable) (symbolParam : String)
    (rSignal rConf rRisk : ℚ) : ApiResult AIAnalysis :=
  match analyzeMarketWithAI md (jsToUpperCase symbolParam)
      rSignal rConf rRisk with
  | Except.ok analysis => ApiResult.json 200 analysis
  | Except.error _ => ApiResult.failure 500 "AI analysis failed"

/-- Result record of `generateTradingSignal` (lines 218-223 of
src/complete-tradepro-backend.js): the analysis plus entry data. -/
structure TradingSignal where
  analysis : AIAnalysis
  entryPrice : ℚ
  quantity : ℤ
  timeframe : String
deriving DecidableEq, Repr

/-- `generateTradingSignal` (lines 212-224 of
src/complete-tradepro-backend.js): run the AI analysis, store it in the
`aiAnalysis` map under the key `symbol + '_' + Date.now()`, and return
it extended with entry price, quantity and timeframe. `rQty` is the
quantity draw and `now` the `Date.now()` value. -/
def generateTradingSignal (md : QuoteTable)
    (ai : List (String × AIAnalysis)) (symbol : String)
    (rSignal rConf rRisk rQty : ℚ) (now : ℕ) :
    Except String (TradingSignal × List (String × AIAnalysis)) :=
  match analyzeMarketWithAI md symbol rSignal rConf rRisk with
  | Except.error e => Except.error e
  | Except.ok analysis =>
      Except.ok
        ({ analysis := analysis
           entryPrice := analysis.targetPrice * 0.999
           quantity := Int.floor (rQty * 100) + 25
           timeframe := "5min" },
         mapSet ai (symbol ++ "_" ++ toString now) analysis)

/-- `POST /api/ai/trading-signal/:symbol` (lines 380-389 of
src/complete-tradepro-backend.js): the `catch` block maps every thrown
error, including the not-found one, to a 500 with
`error: 'Signal generation failed'`. Returns the response together with
the `aiAnalysis` map after the request. -/
def tradingSignalHandler (md : QuoteTable)
    (ai : List (String × AIAnalysis)) (symbolParam : String)
    (rSignal rConf rRisk rQty : ℚ) (now : ℕ) :
    ApiResult TradingSignal × List (String × AIAnalysis) :=
  match generateTradingSignal md ai (jsToUpperCase symbolParam)
      rSignal rConf rRisk rQty now with
  | Except.ok (sig, ai') => (ApiResult.json 200 sig, ai')
  | Except.error _ => (ApiResult.failure 500 "Signal generation failed", ai)

section EvalHelpers

/-- Evaluation rule for `round2` on concrete inputs. -/
theorem round2_eval {x : ℚ} (k : ℤ) (h1 : (k : ℚ) ≤ x * 100 + 0.5)
    (h2 : x * 100 + 0.5 < (k : ℚ) + 1) : round2 x = (k : ℚ) / 100 := by
  rw [round2, Int.floor_eq_iff.mpr ⟨h1, h2⟩]

theorem tickQuote_price (q : Quote) (rp rv : ℚ) :
    (tickQuote q rp rv).price = round2 (q.price * (1 + (rp - 0.5) * 0.02)) :=
  rfl

theorem tickQuote_change (q : Quote) (rp rv : ℚ) :
    (tickQuote q rp rv).change =
      round2 (q.price * (1 + (rp - 0.5) * 0.02) - q.price) := rfl

theorem tickQuote_changePercent (q : Quote) (rp rv : ℚ) :
    (tickQuote q rp rv).changePercent =
      round2 ((q.price * (1 + (rp - 0.5) * 0.02) - q.price) /
        q.price * 100) := rfl

theorem tickQuote_volume (q : Quote) (rp rv : ℚ) :
    (tickQuote q rp rv).volume = Int.floor (rv * 500000) + 500000 := rfl

end EvalHelpers

/-- C7: the key set of the quote table is the static list BANKNIFTY,
NIFTY, SENSEX, FINNIFTY loaded at process start, and it is preserved by
every tick and by every event the server core processes (viewer connect,
close, break, tick); hence it is invariant along every run. The read
endpoints (`getMarketIndexHandler`, `optionsChainHandler`,
`analyzeMarketHandler`, `tradingSignalHandler`) are pure functions of
the state and cannot modify the table at all. -/
theorem c7_static_key_set :
    mapKeys marketData0 = tickSymbols ∧
    (∀ (md : QuoteTable) (rnd : String → ℚ × ℚ),
      mapKeys (updateMarketData md rnd).1 = mapKeys md) ∧
    (∀ (st : ServerState) (e : Event),
      mapKeys (step st e).marketData = mapKeys st.marketData) ∧
    (∀ es : List Event, mapKeys (run initState es).marketData = tickSymbols) := by
  have hstep : ∀ (st : ServerState) (e : Event),
      mapKeys (step st e).marketData = mapKeys st.marketData := by
    intro st e
    cases e with
    | connect cid => rfl
    | close cid => rfl
    | breakConn cid => rfl
    | tick rnd => exact updateMarketData_keys rnd st.marketData
  have hrun : ∀ (es : List Event) (st : ServerState),
      mapKeys (run st es).marketData = mapKeys st.marketData := by
    intro es
    induction es with
    | nil => intro st; rfl
    | cons e es ih =>
        intro st
        rw [run, List.foldl_cons]
        exact (ih (step st e)).trans (hstep st e)
  exact ⟨rfl, fun md rnd => updateMarketData_keys rnd md, hstep,
    fun es => (hrun es initState).trans rfl⟩

/-- C8: on every tick of a tracked symbol, the regenerated volume is
`Math.floor(r * 500000) + 500000` for the volume draw `r` in `[0, 1)`,
hence an integer (it lives in `ℤ` by construction) that is at least
500000 and strictly below 1000000. -/
theorem c8_volume_integer_range (md : QuoteTable) (rnd : String → ℚ × ℚ)
    (s : String) (q : Quote) (hq : mapGet md s = some q)
    (hs : s ∈ tickSymbols) (h0 : 0 ≤ (rnd s).2) (h1 : (rnd s).2 < 1) :
    mapGet (updateMarketData md rnd).1 s =
      some (tickQuote q (rnd s).1 (rnd s).2) ∧
    (tickQuote q (rnd s).1 (rnd s).2).volume =
      Int.floor ((rnd s).2 * 500000) + 500000 ∧
    500000 ≤ (tickQuote q (rnd s).1 (rnd s).2).volume ∧
    (tickQuote q (rnd s).1 (rnd s).2).volume < 1000000 := by
  have hf0 : (0 : ℤ) ≤ Int.floor ((rnd s).2 * 500000) :=
    Int.floor_nonneg.mpr (mul_nonneg h0 (by norm_num))
  have hub : (rnd s).2 * 500000 < 500000 := by nlinarith
  have hf1 : Int.floor ((rnd s).2 * 500000) < 500000 := by
    rw [Int.floor_lt]
    push_cast
    exact hub
  refine ⟨updateMarketData_get rnd md hq hs, rfl, ?_, ?_⟩
  · rw [tickQuote_volume]; omega
  · rw [tickQuote_volume]; omega

/-- C8 witness: the bounds evaluated on the initial BANKNIFTY quote with
both random draws equal to one half. -/
theorem c8_volume_integer_range_witness :
    mapGet (updateMarketData marketData0 (fun _ => (3 / 4, 1 / 2))).1
        "BANKNIFTY" =
      some (tickQuote
        ⟨1, "BANKNIFTY", "Bank Nifty", 47825.50, 245.75, 0.52, 1234567⟩
        (3 / 4) (1 / 2)) ∧
    (tickQuote ⟨1, "BANKNIFTY", "Bank Nifty", 47825.50, 245.75, 0.52, 1234567⟩
        (3 / 4) (1 / 2)).volume = Int.floor ((1 : ℚ) / 2 * 500000) + 500000 ∧
    500000 ≤ (tickQuote
        ⟨1, "BANKNIFTY", "Bank Nifty", 47825.50, 245.75, 0.52, 1234567⟩
        (3 / 4) (1 / 2)).volume ∧
    (tickQuote ⟨1, "BANKNIFTY", "Bank Nifty", 47825.50, 245.75, 0.52, 1234567⟩
        (3 / 4) (1 / 2)).volume < 1000000 :=
  c8_volume_integer_range marketData0 (fun _ => (3 / 4, 1 / 2)) "BANKNIFTY"
    ⟨1, "BANKNIFTY", "Bank Nifty", 47825.50, 245.75, 0.52, 1234567⟩
    rfl (by decide) (by norm_num) (by norm_num)

/-- Distance between the rounded ratio and the ratio of the rounded
numerator: bounded by half a hundredth plus the amplification of the
numerator rounding by 100/p. -/
theorem round2_ratio_err (c0 p : ℚ) (hp : 0 < p) :
    |round2 (c0 / p * 100) - round2 c0 / p * 100| ≤
      (1 + 100 / p) * (1 / 200) := by
  have ha := round2_err (c0 / p * 100)
  have hb := round2_err c0
  have ht : (0 : ℚ) ≤ 100 / p := by positivity
  have key : round2 (c0 / p * 100) - round2 c0 / p * 100 =
      (round2 (c0 / p * 100) - c0 / p * 100) -
        (round2 c0 - c0) * (100 / p) := by ring
  rw [key]
  calc |(round2 (c0 / p * 100) - c0 / p * 100) -
      (round2 c0 - c0) * (100 / p)|
      ≤ |round2 (c0 / p * 100) - c0 / p * 100| +
          |(round2 c0 - c0) * (100 / p)| := abs_sub _ _
    _ = |round2 (c0 / p * 100) - c0 / p * 100| +
          |round2 c0 - c0| * (100 / p) := by
        rw [abs_mul, abs_of_nonneg ht]
    _ ≤ 1 / 200 + 1 / 200 * (100 / p) :=
        add_le_add ha (mul_le_mul_of_nonneg_right hb ht)
    _ = (1 + 100 / p) * (1 / 200) := by ring

/-- C2 (amended): after a tick of a tracked symbol whose stored price is
a whole number of hundredths (every reachable price is: the initial
prices are, and every stored price is rounded to hundredths), the stored
absoluteChange satisfies `change = price(t) - price(t-1)` exactly, but
the stored percentChange equals `absoluteChange / price(t-1) * 100` only
up to the two-decimal rounding of the stored fields: the deviation is
bounded by `(1 + 100 / price(t-1)) / 200` (about half a hundredth), not
by floating-point tolerance. -/
theorem c2_change_invariants_rounded (md : QuoteTable)
    (rnd : String → ℚ × ℚ) (s : String) (q : Quote) (k : ℤ)
    (hq : mapGet md s = some q) (hs : s ∈ tickSymbols)
    (hcent : q.price = (k : ℚ) / 100) (hpos : 0 < q.price) :
    mapGet (updateMarketData md rnd).1 s =
      some (tickQuote q (rnd s).1 (rnd s).2) ∧
    (tickQuote q (rnd s).1 (rnd s).2).change =
      (tickQuote q (rnd s).1 (rnd s).2).price - q.price ∧
    |(tickQuote q (rnd s).1 (rnd s).2).changePercent -
        (tickQuote q (rnd s).1 (rnd s).2).change / q.price * 100| ≤
      (1 + 100 / q.price) * (1 / 200) := by
  refine ⟨updateMarketData_get rnd md hq hs, ?_, ?_⟩
  · rw [tickQuote_change, tickQuote_price, hcent, round2_sub_cent]
  · rw [tickQuote_changePercent, tickQuote_change]
    exact round2_ratio_err _ _ hpos

/-- C2 (counterexample): from the initial state, tick BANKNIFTY (stored
price 47825.50) with price draw 15051/20000 (fluctuation factor exactly
0.005051). The stored quote has absoluteChange 241.57 and percentChange
0.51, but `absoluteChange / previousPrice * 100 = 0.50510718...`: the
stored percentChange differs from it by about 0.0049, which no
floating-point tolerance covers (the deviation is forced by the
two-decimal rounding, at the scale of half a hundredth). -/
theorem c2_counterexample :
    (mapGet marketData0 "BANKNIFTY").map Quote.price = some (478255 / 10) ∧
    (mapGet (updateMarketData marketData0
        (fun _ => (15051 / 20000, 1 / 2))).1 "BANKNIFTY").map
        (fun q => (q.change, q.changePercent)) =
      some (24157 / 100, 51 / 100) ∧
    (51 : ℚ) / 100 ≠ 24157 / 100 / (478255 / 10) * 100 ∧
    ¬(|(51 : ℚ) / 100 - 24157 / 100 / (478255 / 10) * 100| ≤ 1 / 250) := by
  have hget := updateMarketData_get (fun _ => ((15051 : ℚ) / 20000, 1 / 2))
    marketData0
    (show mapGet marketData0 "BANKNIFTY" =
      some ⟨1, "BANKNIFTY", "Bank Nifty", 47825.50, 245.75, 0.52, 1234567⟩
      from rfl)
    (by decide)
  have hch : (tickQuote
      (⟨1, "BANKNIFTY", "Bank Nifty", 47825.50, 245.75, 0.52, 1234567⟩ : Quote)
      (((fun _ => ((15051 : ℚ) / 20000, 1 / 2)) "BANKNIFTY").1)
      (((fun _ => ((15051 : ℚ) / 20000, 1 / 2)) "BANKNIFTY").2)).change =
      24157 / 100 := by
    rw [tickQuote_change]
    rw [round2_eval 24157 (by norm_num) (by norm_num)]
    norm_num
  have hpc : (tickQuote
      (⟨1, "BANKNIFTY", "Bank Nifty", 47825.50, 245.75, 0.52, 1234567⟩ : Quote)
      (((fun _ => ((15051 : ℚ) / 20000, 1 / 2)) "BANKNIFTY").1)
      (((fun _ => ((15051 : ℚ) / 20000, 1 / 2)) "BANKNIFTY").2)).changePercent =
      51 / 100 := by
    rw [tickQuote_changePercent]
    rw [round2_eval 51 (by norm_num) (by norm_num)]
    norm_num
  refine ⟨by norm_num [marketData0, mapGet], ?_, by norm_num, ?_⟩
  · rw [hget, Option.map_some', hch, hpc]
  · rw [abs_le]
    intro h
    have := h.2
    norm_num at this

/-- C2 witness: the amended invariants evaluated on the initial
BANKNIFTY quote (price 47825.50, a whole number of hundredths) with
price draw 3/4. -/
theorem c2_change_invariants_rounded_witness :
    mapGet (updateMarketData marketData0 (fun _ => (3 / 4, 1 / 2))).1
        "BANKNIFTY" =
      some (tickQuote
        ⟨1, "BANKNIFTY", "Bank Nifty", 47825.50, 245.75, 0.52, 1234567⟩
        (3 / 4) (1 / 2)) ∧
    (tickQuote ⟨1, "BANKNIFTY", "Bank Nifty", 47825.50, 245.75, 0.52, 1234567⟩
        (3 / 4) (1 / 2)).change =
      (tickQuote ⟨1, "BANKNIFTY", "Bank Nifty", 47825.50, 245.75, 0.52, 1234567⟩
        (3 / 4) (1 / 2)).price - 47825.50 ∧
    |(tickQuote ⟨1, "BANKNIFTY", "Bank Nifty", 47825.50, 245.75, 0.52, 1234567⟩
        (3 / 4) (1 / 2)).changePercent -
      (tickQuote ⟨1, "BANKNIFTY", "Bank Nifty", 47825.50, 245.75, 0.52, 1234567⟩
        (3 / 4) (1 / 2)).change / 47825.50 * 100| ≤
      (1 + 100 / 47825.50) * (1 / 200) :=
  c2_change_invariants_rounded marketData0 (fun _ => (3 / 4, 1 / 2))
    "BANKNIFTY" ⟨1, "BANKNIFTY", "Bank Nifty", 47825.50, 245.75, 0.52, 1234567⟩
    4782550 rfl (by decide) (by norm_num) (by norm_num)

/-- C3 (amended): the fluctuation factor drawn from a random value in
`[0, 1)` lies in `[-0.01, 0.01)` (so within the claimed `[-0.01, 0.01]`),
the raw new price `oldPrice * (1 + f)` lies within
`oldPrice * [0.99, 1.01)`, but the STORED price is the raw price rounded
to hundredths, so it is only guaranteed to lie within
`[0.99 * oldPrice - 0.005, 1.01 * oldPrice + 0.005]`: the rounding can
push it beyond `1.01 * oldPrice`. -/
theorem c3_price_band_rounded (md : QuoteTable) (rnd : String → ℚ × ℚ)
    (s : String) (q : Quote) (hq : mapGet md s = some q)
    (hs : s ∈ tickSymbols) (h0 : 0 ≤ (rnd s).1) (h1 : (rnd s).1 < 1)
    (hpos : 0 < q.price) :
    mapGet (updateMarketData md rnd).1 s =
      some (tickQuote q (rnd s).1 (rnd s).2) ∧
    -(1 / 100) ≤ ((rnd s).1 - 0.5) * 0.02 ∧
    ((rnd s).1 - 0.5) * 0.02 < 1 / 100 ∧
    (tickQuote q (rnd s).1 (rnd s).2).price =
      round2 (q.price * (1 + ((rnd s).1 - 0.5) * 0.02)) ∧
    99 / 100 * q.price ≤ q.price * (1 + ((rnd s).1 - 0.5) * 0.02) ∧
    q.price * (1 + ((rnd s).1 - 0.5) * 0.02) < 101 / 100 * q.price ∧
    99 / 100 * q.price - 1 / 200 ≤ (tickQuote q (rnd s).1 (rnd s).2).price ∧
    (tickQuote q (rnd s).1 (rnd s).2).price ≤
      101 / 100 * q.price + 1 / 200 := by
  have hfl : -(1 / 100) ≤ ((rnd s).1 - 0.5) * 0.02 := by linarith
  have hfu : ((rnd s).1 - 0.5) * 0.02 < 1 / 100 := by linarith
  have hrawl : 99 / 100 * q.price ≤
      q.price * (1 + ((rnd s).1 - 0.5) * 0.02) := by
    have hb : 99 / 100 ≤ 1 + ((rnd s).1 - 0.5) * 0.02 := by linarith
    have := mul_le_mul_of_nonneg_left hb (le_of_lt hpos)
    linarith
  have hrawu : q.price * (1 + ((rnd s).1 - 0.5) * 0.02) <
      101 / 100 * q.price := by
    have hb : 1 + ((rnd s).1 - 0.5) * 0.02 < 101 / 100 := by linarith
    have := mul_lt_mul_of_pos_left hb hpos
    linarith
  have herr := abs_le.mp (round2_err (q.price * (1 + ((rnd s).1 - 0.5) * 0.02)))
  refine ⟨updateMarketData_get rnd md hq hs, hfl, hfu,
    tickQuote_price q _ _, hrawl, hrawu, ?_, ?_⟩
  · rw [tickQuote_price]
    linarith [herr.1]
  · rw [tickQuote_price]
    linarith [herr.2]

/-- C3 (counterexample): from the initial state, tick SENSEX (stored
price 72456.80) with the admissible price draw 724567/724568. The raw
new price is 73181.366, inside `oldPrice * [0.99, 1.01)`, but the
STORED price is its rounding 73181.37, which exceeds
`1.01 * 72456.80 = 73181.368`: the claim that the stored newPrice lies
within `oldPrice * [0.99, 1.01]` is false. -/
theorem c3_counterexample :
    (mapGet marketData0 "SENSEX").map Quote.price = some (724568 / 10) ∧
    (0 : ℚ) ≤ 724567 / 724568 ∧ (724567 : ℚ) / 724568 < 1 ∧
    (mapGet (updateMarketData marketData0
        (fun _ => (724567 / 724568, 1 / 2))).1 "SENSEX").map Quote.price =
      some (7318137 / 100) ∧
    ¬((7318137 : ℚ) / 100 ≤ 101 / 100 * (724568 / 10)) := by
  have hget := updateMarketData_get (fun _ => ((724567 : ℚ) / 724568, 1 / 2))
    marketData0
    (show mapGet marketData0 "SENSEX" =
      some ⟨3, "SENSEX", "Sensex", 72456.80, 189.20, 0.26, 654321⟩ from rfl)
    (by decide)
  have hpr : (tickQuote
      (⟨3, "SENSEX", "Sensex", 72456.80, 189.20, 0.26, 654321⟩ : Quote)
      (((fun _ => ((724567 : ℚ) / 724568, 1 / 2)) "SENSEX").1)
      (((fun _ => ((724567 : ℚ) / 724568, 1 / 2)) "SENSEX").2)).price =
      7318137 / 100 := by
    rw [tickQuote_price]
    rw [round2_eval 7318137 (by norm_num) (by norm_num)]
    norm_num
  refine ⟨?_, by norm_num, by norm_num, ?_, by norm_num⟩
  · rw [show mapGet marketData0 "SENSEX" =
      some ⟨3, "SENSEX", "Sensex", 72456.80, 189.20, 0.26, 654321⟩ from rfl]
    rw [Option.map_some']
    norm_num
  · rw [hget, Option.map_some', hpr]

/-- C3 witness: the amended bounds evaluated on the initial BANKNIFTY
quote with price draw 3/4. -/
theorem c3_price_band_rounded_witness :
    mapGet (updateMarketData marketData0 (fun _ => (3 / 4, 1 / 2))).1
        "BANKNIFTY" =
      some (tickQuote
        ⟨1, "BANKNIFTY", "Bank Nifty", 47825.50, 245.75, 0.52, 1234567⟩
        (3 / 4) (1 / 2)) ∧
    -(1 / 100) ≤ ((3 : ℚ) / 4 - 0.5) * 0.02 ∧
    ((3 : ℚ) / 4 - 0.5) * 0.02 < 1 / 100 ∧
    (tickQuote ⟨1, "BANKNIFTY", "Bank Nifty", 47825.50, 245.75, 0.52, 1234567⟩
        (3 / 4) (1 / 2)).price =
      round2 (47825.50 * (1 + ((3 : ℚ) / 4 - 0.5) * 0.02)) ∧
    99 / 100 * 47825.50 ≤ (47825.50 : ℚ) * (1 + ((3 : ℚ) / 4 - 0.5) * 0.02) ∧
    (47825.50 : ℚ) * (1 + ((3 : ℚ) / 4 - 0.5) * 0.02) < 101 / 100 * 47825.50 ∧
    99 / 100 * 47825.50 - 1 / 200 ≤
      (tickQuote ⟨1, "BANKNIFTY", "Bank Nifty", 47825.50, 245.75, 0.52, 1234567⟩
        (3 / 4) (1 / 2)).price ∧
    (tickQuote ⟨1, "BANKNIFTY", "Bank Nifty", 47825.50, 245.75, 0.52, 1234567⟩
        (3 / 4) (1 / 2)).price ≤ 101 / 100 * 47825.50 + 1 / 200 :=
  c3_price_band_rounded marketData0 (fun _ => (3 / 4, 1 / 2)) "BANKNIFTY"
    ⟨1, "BANKNIFTY", "Bank Nifty", 47825.50, 245.75, 0.52, 1234567⟩
    rfl (by decide) (by norm_num) (by norm_num) (by norm_num)

/-- C10: after a tick of a tracked symbol, each of the stored price,
absoluteChange and percentChange is the two-decimal rounding of the
exact computed value: a whole number of hundredths, and a nearest such
multiple to the exact value (ties are broken toward the larger
candidate, which is still a nearest multiple). -/
theorem c10_stored_fields_rounded (md : QuoteTable) (rnd : String → ℚ × ℚ)
    (s : String) (q : Quote) (hq : mapGet md s = some q)
    (hs : s ∈ tickSymbols) (_hpos : 0 < q.price) :
    mapGet (updateMarketData md rnd).1 s =
      some (tickQuote q (rnd s).1 (rnd s).2) ∧
    (tickQuote q (rnd s).1 (rnd s).2).price =
      round2 (q.price * (1 + ((rnd s).1 - 0.5) * 0.02)) ∧
    (tickQuote q (rnd s).1 (rnd s).2).change =
      round2 (q.price * (1 + ((rnd s).1 - 0.5) * 0.02) - q.price) ∧
    (tickQuote q (rnd s).1 (rnd s).2).changePercent =
      round2 ((q.price * (1 + ((rnd s).1 - 0.5) * 0.02) - q.price) /
        q.price * 100) ∧
    (∃ a : ℤ, (tickQuote q (rnd s).1 (rnd s).2).price = (a : ℚ) / 100) ∧
    (∃ b : ℤ, (tickQuote q (rnd s).1 (rnd s).2).change = (b : ℚ) / 100) ∧
    (∃ n : ℤ, (tickQuote q (rnd s).1 (rnd s).2).changePercent =
      (n : ℚ) / 100) ∧
    (∀ m : ℤ, |(tickQuote q (rnd s).1 (rnd s).2).price -
        q.price * (1 + ((rnd s).1 - 0.5) * 0.02)| ≤
      |(m : ℚ) / 100 - q.price * (1 + ((rnd s).1 - 0.5) * 0.02)|) ∧
    (∀ m : ℤ, |(tickQuote q (rnd s).1 (rnd s).2).change -
        (q.price * (1 + ((rnd s).1 - 0.5) * 0.02) - q.price)| ≤
      |(m : ℚ) / 100 - (q.price * (1 + ((rnd s).1 - 0.5) * 0.02) - q.price)|) ∧
    (∀ m : ℤ, |(tickQuote q (rnd s).1 (rnd s).2).changePercent -
        (q.price * (1 + ((rnd s).1 - 0.5) * 0.02) - q.price) /
          q.price * 100| ≤
      |(m : ℚ) / 100 - (q.price * (1 + ((rnd s).1 - 0.5) * 0.02) - q.price) /
          q.price * 100|) := by
  refine ⟨updateMarketData_get rnd md hq hs, tickQuote_price q _ _,
    tickQuote_change q _ _, tickQuote_changePercent q _ _, ?_, ?_, ?_,
    ?_, ?_, ?_⟩
  · rw [tickQuote_price]; exact round2_cent _
  · rw [tickQuote_change]; exact round2_cent _
  · rw [tickQuote_changePercent]; exact round2_cent _
  · intro m; rw [tickQuote_price]; exact round2_nearest _ m
  · intro m; rw [tickQuote_change]; exact round2_nearest _ m
  · intro m; rw [tickQuote_changePercent]; exact round2_nearest _ m

/-- C10 witness: the rounding facts evaluated on the initial BANKNIFTY
quote with price draw 3/4. -/
theorem c10_stored_fields_rounded_witness :
    mapGet (updateMarketData marketData0 (fun _ => (3 / 4, 1 / 2))).1
        "BANKNIFTY" =
      some (tickQuote
        ⟨1, "BANKNIFTY", "Bank Nifty", 47825.50, 245.75, 0.52, 1234567⟩
        (3 / 4) (1 / 2)) ∧
    (tickQuote ⟨1, "BANKNIFTY", "Bank Nifty", 47825.50, 245.75, 0.52, 1234567⟩
        (3 / 4) (1 / 2)).price =
      round2 (47825.50 * (1 + ((3 : ℚ) / 4 - 0.5) * 0.02)) ∧
    (tickQuote ⟨1, "BANKNIFTY", "Bank Nifty", 47825.50, 245.75, 0.52, 1234567⟩
        (3 / 4) (1 / 2)).change =
      round2 (47825.50 * (1 + ((3 : ℚ) / 4 - 0.5) * 0.02) - 47825.50) ∧
    (tickQuote ⟨1, "BANKNIFTY", "Bank Nifty", 47825.50, 245.75, 0.52, 1234567⟩
        (3 / 4) (1 / 2)).changePercent =
      round2 ((47825.50 * (1 + ((3 : ℚ) / 4 - 0.5) * 0.02) - 47825.50) /
        47825.50 * 100) ∧
    (∃ a : ℤ, (tickQuote
        ⟨1, "BANKNIFTY", "Bank Nifty", 47825.50, 245.75, 0.52, 1234567⟩
        (3 / 4) (1 / 2)).price = (a : ℚ) / 100) ∧
    (∃ b : ℤ, (tickQuote
        ⟨1, "BANKNIFTY", "Bank Nifty", 47825.50, 245.75, 0.52, 1234567⟩
        (3 / 4) (1 / 2)).change = (b : ℚ) / 100) ∧
    (∃ n : ℤ, (tickQuote
        ⟨1, "BANKNIFTY", "Bank Nifty", 47825.50, 245.75, 0.52, 1234567⟩
        (3 / 4) (1 / 2)).changePercent = (n : ℚ) / 100) ∧
    (∀ m : ℤ, |(tickQuote
        ⟨1, "BANKNIFTY", "Bank Nifty", 47825.50, 245.75, 0.52, 1234567⟩
        (3 / 4) (1 / 2)).price -
        47825.50 * (1 + ((3 : ℚ) / 4 - 0.5) * 0.02)| ≤
      |(m : ℚ) / 100 - 47825.50 * (1 + ((3 : ℚ) / 4 - 0.5) * 0.02)|) ∧
    (∀ m : ℤ, |(tickQuote
        ⟨1, "BANKNIFTY", "Bank Nifty", 47825.50, 245.75, 0.52, 1234567⟩
        (3 / 4) (1 / 2)).change -
        (47825.50 * (1 + ((3 : ℚ) / 4 - 0.5) * 0.02) - 47825.50)| ≤
      |(m : ℚ) / 100 -
        (47825.50 * (1 + ((3 : ℚ) / 4 - 0.5) * 0.02) - 47825.50)|) ∧
    (∀ m : ℤ, |(tickQuote
        ⟨1, "BANKNIFTY", "Bank Nifty", 47825.50, 245.75, 0.52, 1234567⟩
        (3 / 4) (1 / 2)).changePercent -
        (47825.50 * (1 + ((3 : ℚ) / 4 - 0.5) * 0.02) - 47825.50) /
          47825.50 * 100| ≤
      |(m : ℚ) / 100 -
        (47825.50 * (1 + ((3 : ℚ) / 4 - 0.5) * 0.02) - 47825.50) /
          47825.50 * 100|) :=
  c10_stored_fields_rounded marketData0 (fun _ => (3 / 4, 1 / 2)) "BANKNIFTY"
    ⟨1, "BANKNIFTY", "Bank Nifty", 47825.50, 245.75, 0.52, 1234567⟩
    rfl (by decide) (by norm_num)

/-- C1: in every run of the server from its initial state, every
registered viewer received exactly one `initialData` snapshot, as its
very first message, covering all tracked symbols; every later message
is an incremental `marketUpdate`, so no incremental update is ever
delivered ahead of the snapshot. -/
theorem c1_snapshot_before_any_update (es : List Event) (c : Client)
    (hc : c ∈ (run initState es).clients) : snapshotFirst c :=
  (goodState_run es initState goodState_init).2 c hc

/-- C1 witness: the property evaluated on the singleton run in which one
viewer connects. -/
theorem c1_snapshot_before_any_update_witness :
    (⟨7, true, [Message.initialData marketData0]⟩ : Client) ∈
      (run initState [Event.connect 7]).clients ∧
    snapshotFirst ⟨7, true, [Message.initialData marketData0]⟩ := by
  have hmem : (⟨7, true, [Message.initialData marketData0]⟩ : Client) ∈
      (run initState [Event.connect 7]).clients := by
    rw [show (run initState [Event.connect 7]).clients =
      [⟨7, true, [Message.initialData marketData0]⟩] from rfl]
    exact List.mem_singleton.mpr rfl
  exact ⟨hmem, c1_snapshot_before_any_update _ _ hmem⟩

/-- C4: two viewers that are registered and OPEN while the same events
run (neither is closed or broken during them) both end up having
received exactly the same ordered list of messages appended to their
inboxes, namely the tick stream of those events; that common stream
consists of per-symbol `marketUpdate` messages only. Where each viewer
connected earlier is immaterial: the starting state is arbitrary. -/
theorem c4_viewers_see_same_stream (st : ServerState) (es : List Event)
    (v1 v2 : Client) (h1 : v1 ∈ st.clients) (h2 : v2 ∈ st.clients)
    (ho1 : v1.readyStateOpen = true) (ho2 : v2.readyStateOpen = true)
    (ha1 : ∀ e ∈ es, affects v1.cid e = false)
    (ha2 : ∀ e ∈ es, affects v2.cid e = false) :
    (⟨v1.cid, true, v1.inbox ++ streamOf st.marketData es⟩ : Client) ∈
      (run st es).clients ∧
    (⟨v2.cid, true, v2.inbox ++ streamOf st.marketData es⟩ : Client) ∈
      (run st es).clients ∧
    ∀ m ∈ streamOf st.marketData es, ∃ s q, m = Message.marketUpdate s q :=
  ⟨run_client_stream es st v1 h1 ho1 ha1,
   run_client_stream es st v2 h2 ho2 ha2,
   fun m hm => streamOf_marketUpdates es st.marketData m hm⟩

/-- C4 witness: two open viewers across one tick. -/
theorem c4_viewers_see_same_stream_witness :
    (⟨1, true, [] ++ streamOf marketData0
        [Event.tick (fun _ => (3 / 4, 1 / 2))]⟩ : Client) ∈
      (run ⟨marketData0, [⟨1, true, []⟩, ⟨2, true, []⟩]⟩
        [Event.tick (fun _ => (3 / 4, 1 / 2))]).clients ∧
    (⟨2, true, [] ++ streamOf marketData0
        [Event.tick (fun _ => (3 / 4, 1 / 2))]⟩ : Client) ∈
      (run ⟨marketData0, [⟨1, true, []⟩, ⟨2, true, []⟩]⟩
        [Event.tick (fun _ => (3 / 4, 1 / 2))]).clients ∧
    ∀ m ∈ streamOf marketData0 [Event.tick (fun _ => (3 / 4, 1 / 2))],
      ∃ s q, m = Message.marketUpdate s q :=
  c4_viewers_see_same_stream ⟨marketData0, [⟨1, true, []⟩, ⟨2, true, []⟩]⟩
    [Event.tick (fun _ => (3 / 4, 1 / 2))] ⟨1, true, []⟩ ⟨2, true, []⟩
    (by simp) (by simp) rfl rfl
    (by intro e he; rw [List.mem_singleton] at he; subst he; rfl)
    (by intro e he; rw [List.mem_singleton] at he; subst he; rfl)

/-- C5: a viewer whose connection is no longer OPEN is skipped during
fan-out: it receives nothing, and every other registered viewer receives
exactly the same messages as it would if the broken viewer were not
registered at all; the quote table produced by the tick is a pure
function of the table and the random draws, unaffected by any viewer
failure; and once the broken connection's close event is processed, the
viewer is no longer in the registry. (In the `ws` transport, a
closed/broken connection leaves the OPEN readyState and its close event
removes it from `wss.clients`; broadcastToClients itself never throws,
it only skips non-OPEN clients, so the failure cannot propagate to the
tick generator.) -/
theorem c5_broken_viewer_isolated (st : ServerState)
    (rnd : String → ℚ × ℚ) (cs1 cs2 : List Client) (c : Client)
    (ms : List Message) (cid : ℕ) (hfail : c.readyStateOpen = false) :
    (step st (Event.tick rnd)).marketData =
      (updateMarketData st.marketData rnd).1 ∧
    ms.foldl broadcastToClients (cs1 ++ c :: cs2) =
      ms.foldl broadcastToClients cs1 ++ c :: ms.foldl broadcastToClients cs2 ∧
    (∀ v ∈ (step st (Event.close cid)).clients, v.cid ≠ cid) := by
  refine ⟨rfl, ?_, ?_⟩
  · simp [foldl_broadcast, hfail]
  · intro v hv
    rw [step] at hv
    have := (List.mem_filter.mp hv).2
    simpa using this

/-- C5 witness: a broken viewer between two open viewers, one message,
one close event. -/
theorem c5_broken_viewer_isolated_witness :
    (step ⟨marketData0, [⟨2, false, []⟩]⟩
      (Event.tick (fun _ => (3 / 4, 1 / 2)))).marketData =
      (updateMarketData marketData0 (fun _ => (3 / 4, 1 / 2))).1 ∧
    [Message.marketUpdate "NIFTY" ⟨2, "NIFTY", "Nifty 50", 100, 0, 0, 0⟩].foldl
        broadcastToClients
        ([⟨1, true, []⟩] ++ (⟨2, false, []⟩ : Client) :: [⟨3, true, []⟩]) =
      [Message.marketUpdate "NIFTY" ⟨2, "NIFTY", "Nifty 50", 100, 0, 0, 0⟩].foldl
        broadcastToClients [⟨1, true, []⟩] ++
        (⟨2, false, []⟩ : Client) ::
        [Message.marketUpdate "NIFTY" ⟨2, "NIFTY", "Nifty 50", 100, 0, 0, 0⟩].foldl
          broadcastToClients [⟨3, true, []⟩] ∧
    (∀ v ∈ (step ⟨marketData0, [⟨2, false, []⟩]⟩ (Event.close 2)).clients,
      v.cid ≠ 2) :=
  c5_broken_viewer_isolated ⟨marketData0, [⟨2, false, []⟩]⟩
    (fun _ => (3 / 4, 1 / 2)) [⟨1, true, []⟩] [⟨3, true, []⟩] ⟨2, false, []⟩
    [Message.marketUpdate "NIFTY" ⟨2, "NIFTY", "Nifty 50", 100, 0, 0, 0⟩] 2 rfl

/-- C9: for a tracked symbol stored at price 100.00, a tick whose price
draw is 3/4 (fluctuation factor exactly +0.005) stores price 100.50,
absoluteChange 0.50 and percentChange 0.50; in the run connect-tick-
connect, the viewer that connected before the tick got the pre-tick
snapshot (symbol at 100.00) followed by the tick updates, and the viewer
that connected after got the post-tick snapshot (symbol at 100.50). -/
theorem c9_example_scenario (md : QuoteTable) (rnd : String → ℚ × ℚ)
    (q : Quote) (hq : mapGet md "BANKNIFTY" = some q)
    (hprice : q.price = 100) (hrp : (rnd "BANKNIFTY").1 = 3 / 4) :
    (run ⟨md, []⟩
      [Event.connect 1, Event.tick rnd, Event.connect 2]).marketData =
      (updateMarketData md rnd).1 ∧
    mapGet (updateMarketData md rnd).1 "BANKNIFTY" =
      some (tickQuote q (rnd "BANKNIFTY").1 (rnd "BANKNIFTY").2) ∧
    (tickQuote q (rnd "BANKNIFTY").1 (rnd "BANKNIFTY").2).price = 201 / 2 ∧
    (tickQuote q (rnd "BANKNIFTY").1 (rnd "BANKNIFTY").2).change = 1 / 2 ∧
    (tickQuote q (rnd "BANKNIFTY").1
      (rnd "BANKNIFTY").2).changePercent = 1 / 2 ∧
    (run ⟨md, []⟩
      [Event.connect 1, Event.tick rnd, Event.connect 2]).clients =
      [⟨1, true, [Message.initialData md] ++ (updateMarketData md rnd).2⟩,
       ⟨2, true, [Message.initialData (updateMarketData md rnd).1]⟩] ∧
    (mapGet md "BANKNIFTY").map Quote.price = some 100 := by
  refine ⟨rfl, updateMarketData_get rnd md hq (by decide), ?_, ?_, ?_, ?_, ?_⟩
  · rw [tickQuote_price, hprice, hrp,
      round2_eval 10050 (by norm_num) (by norm_num)]
    norm_num
  · rw [tickQuote_change, hprice, hrp,
      round2_eval 50 (by norm_num) (by norm_num)]
    norm_num
  · rw [tickQuote_changePercent, hprice, hrp,
      round2_eval 50 (by norm_num) (by norm_num)]
    norm_num
  · simp [run, step, foldl_broadcast]
  · rw [hq, Option.map_some', hprice]

/-- C9 witness: a one-symbol table holding BANKNIFTY at 100.00, price
draw 3/4, volume draw 1/2. -/
theorem c9_example_scenario_witness :
    (run ⟨[("BANKNIFTY", ⟨1, "BANKNIFTY", "Bank Nifty", 100, 0, 0, 0⟩)], []⟩
      [Event.connect 1, Event.tick (fun _ => (3 / 4, 1 / 2)),
        Event.connect 2]).marketData =
      (updateMarketData [("BANKNIFTY", ⟨1, "BANKNIFTY", "Bank Nifty", 100, 0, 0, 0⟩)]
        (fun _ => (3 / 4, 1 / 2))).1 ∧
    mapGet (updateMarketData
        [("BANKNIFTY", ⟨1, "BANKNIFTY", "Bank Nifty", 100, 0, 0, 0⟩)]
        (fun _ => (3 / 4, 1 / 2))).1 "BANKNIFTY" =
      some (tickQuote ⟨1, "BANKNIFTY", "Bank Nifty", 100, 0, 0, 0⟩
        (3 / 4) (1 / 2)) ∧
    (tickQuote ⟨1, "BANKNIFTY", "Bank Nifty", 100, 0, 0, 0⟩
      (3 / 4) (1 / 2)).price = 201 / 2 ∧
    (tickQuote ⟨1, "BANKNIFTY", "Bank Nifty", 100, 0, 0, 0⟩
      (3 / 4) (1 / 2)).change = 1 / 2 ∧
    (tickQuote ⟨1, "BANKNIFTY", "Bank Nifty", 100, 0, 0, 0⟩
      (3 / 4) (1 / 2)).changePercent = 1 / 2 ∧
    (run ⟨[("BANKNIFTY", ⟨1, "BANKNIFTY", "Bank Nifty", 100, 0, 0, 0⟩)], []⟩
      [Event.connect 1, Event.tick (fun _ => (3 / 4, 1 / 2)),
        Event.connect 2]).clients =
      [⟨1, true, [Message.initialData
          [("BANKNIFTY", ⟨1, "BANKNIFTY", "Bank Nifty", 100, 0, 0, 0⟩)]] ++
        (updateMarketData
          [("BANKNIFTY", ⟨1, "BANKNIFTY", "Bank Nifty", 100, 0, 0, 0⟩)]
          (fun _ => (3 / 4, 1 / 2))).2⟩,
       ⟨2, true, [Message.initialData (updateMarketData
          [("BANKNIFTY", ⟨1, "BANKNIFTY", "Bank Nifty", 100, 0, 0, 0⟩)]
          (fun _ => (3 / 4, 1 / 2))).1]⟩] ∧
    (mapGet [("BANKNIFTY", ⟨1, "BANKNIFTY", "Bank Nifty", 100, 0, 0, 0⟩)]
      "BANKNIFTY").map Quote.price = some 100 :=
  c9_example_scenario
    [("BANKNIFTY", ⟨1, "BANKNIFTY", "Bank Nifty", 100, 0, 0, 0⟩)]
    (fun _ => (3 / 4, 1 / 2)) ⟨1, "BANKNIFTY", "Bank Nifty", 100, 0, 0, 0⟩
    rfl rfl rfl

/-- C6 (amended): for a symbol absent from the quote table (and options
table), the market-data lookup endpoint is the only one that answers
with a 404 not-found; the options-chain endpoint answers 200 with an
empty list, and the AI analysis endpoints, whose inner
`analyzeMarketWithAI` raises `Market data not found`, answer 500 with
`AI analysis failed` / `Signal generation failed` (leaving the stored
analyses untouched). Every handler returns a well-defined response: no
request produces an uncaught error. -/
theorem c6_unknown_symbol_responses (md : QuoteTable)
    (od : List (String × List OptionQuote)) (ai : List (String × AIAnalysis))
    (symbolParam : String) (r1 r2 r3 r4 : ℚ) (now : ℕ)
    (hmd : mapGet md (jsToUpperCase symbolParam) = none) :
    getMarketIndexHandler md symbolParam =
      ApiResult.failure 404 "Market data not found" ∧
    (mapGet od (jsToUpperCase symbolParam) = none →
      optionsChainHandler od symbolParam = ApiResult.json 200 []) ∧
    analyzeMarketWithAI md (jsToUpperCase symbolParam) r1 r2 r3 =
      Except.error "Market data not found" ∧
    analyzeMarketHandler md symbolParam r1 r2 r3 =
      ApiResult.failure 500 "AI analysis failed" ∧
    tradingSignalHandler md ai symbolParam r1 r2 r3 r4 now =
      (ApiResult.failure 500 "Signal generation failed", ai) := by
  have hai : analyzeMarketWithAI md (jsToUpperCase symbolParam) r1 r2 r3 =
      Except.error "Market data not found" := by
    rw [analyzeMarketWithAI, hmd]
  refine ⟨?_, ?_, hai, ?_, ?_⟩
  · rw [getMarketIndexHandler, hmd]
  · intro hod
    rw [optionsChainHandler, hod]
    rfl
  · rw [analyzeMarketHandler, hai]
  · rw [tradingSignalHandler, generateTradingSignal, hai]

/-- C6 (counterexample): the untracked symbol TCS. The options-chain
endpoint answers it with a 200 success carrying an empty list, and the
AI analysis endpoint answers it with a 500 `AI analysis failed`;
neither is a not-found result, contradicting the claim that every such
request yields one. -/
theorem c6_counterexample :
    mapGet marketData0 (jsToUpperCase "TCS") = none ∧
    (optionsChainHandler optionsData0 "TCS").isNotFound = false ∧
    optionsChainHandler optionsData0 "TCS" = ApiResult.json 200 [] ∧
    (analyzeMarketHandler marketData0 "TCS" 0 0 0).isNotFound = false ∧
    analyzeMarketHandler marketData0 "TCS" 0 0 0 =
      ApiResult.failure 500 "AI analysis failed" := by
  have hmd : mapGet marketData0 (jsToUpperCase "TCS") = none := by decide
  have hod : mapGet optionsData0 (jsToUpperCase "TCS") = none := by decide
  have hopt : optionsChainHandler optionsData0 "TCS" = ApiResult.json 200 [] := by
    rw [optionsChainHandler, hod]
    rfl
  have hana : analyzeMarketHandler marketData0 "TCS" 0 0 0 =
      ApiResult.failure 500 "AI analysis failed" := by
    rw [analyzeMarketHandler, show analyzeMarketWithAI marketData0
      (jsToUpperCase "TCS") 0 0 0 = Except.error "Market data not found" by
        rw [analyzeMarketWithAI, hmd]]
  exact ⟨hmd, by rw [hopt]; rfl, hopt, by rw [hana]; rfl, hana⟩

/-- C6 witness: the amended behaviour evaluated at the untracked symbol
TCS against the demo tables. -/
theorem c6_unknown_symbol_responses_witness :
    getMarketIndexHandler marketData0 "TCS" =
      ApiResult.failure 404 "Market data not found" ∧
    (mapGet optionsData0 (jsToUpperCase "TCS") = none →
      optionsChainHandler optionsData0 "TCS" = ApiResult.json 200 []) ∧
    analyzeMarketWithAI marketData0 (jsToUpperCase "TCS") 0 0 0 =
      Except.error "Market data not found" ∧
    analyzeMarketHandler marketData0 "TCS" 0 0 0 =
      ApiResult.failure 500 "AI analysis failed" ∧
    tradingSignalHandler marketData0 [] "TCS" 0 0 0 0 0 =
      (ApiResult.failure 500 "Signal generation failed", []) :=
  c6_unknown_symbol_responses marketData0 optionsData0 [] "TCS" 0 0 0 0 0
    (by decide)
